import Mathlib

/-!
Shallow embedding of the coredump upload engine
(`coredump_uploader.c` / `coredump_uploader.h`).

Machine integers: all byte counts in the source are `size_t` quantities far
below the 32-bit limit (they are offsets into a flash partition), so they are
modelled as `Nat`; `esp_err_t` status codes are modelled as `Int` (they include
the negative code `ESP_FAIL`).

The platform primitives (`esp_reset_reason`, `esp_core_dump_image_get`,
`esp_flash_read`, `esp_core_dump_image_erase`, `mbedtls_base64_encode`) and the
host callbacks are external to the engine; their observable outcomes are passed
in as explicit parameters, and the engine's calls to them are recorded in an
event trace.
-/

/-- Success status (`ESP_OK`). -/
def ESP_OK : Int := 0

/-- Generic failure status (`ESP_FAIL`), used when the Base64 encoder fails. -/
def ESP_FAIL : Int := -1

/-- Out-of-memory status (`ESP_ERR_NO_MEM`). -/
def ESP_ERR_NO_MEM : Int := 0x101

/-- Invalid-argument status (`ESP_ERR_INVALID_ARG`). -/
def ESP_ERR_INVALID_ARG : Int := 0x102

/-- Not-found status (`ESP_ERR_NOT_FOUND`), returned when the image size is 0. -/
def ESP_ERR_NOT_FOUND : Int := 0x105

/-- Reset reasons of the platform (`esp_reset_reason_t`). -/
inductive esp_reset_reason_t where
  | ESP_RST_UNKNOWN
  | ESP_RST_POWERON
  | ESP_RST_EXT
  | ESP_RST_SW
  | ESP_RST_PANIC
  | ESP_RST_INT_WDT
  | ESP_RST_TASK_WDT
  | ESP_RST_WDT
  | ESP_RST_DEEPSLEEP
  | ESP_RST_BROWNOUT
  | ESP_RST_SDIO
deriving DecidableEq

/-- `coredump_uploader_need_upload`, as a function of the last reset reason
returned by the platform (`esp_reset_reason()`). -/
def coredump_uploader_need_upload (reason : esp_reset_reason_t) : Bool :=
  match reason with
  | .ESP_RST_PANIC => true
  | .ESP_RST_INT_WDT => true
  | .ESP_RST_TASK_WDT => true
  | .ESP_RST_WDT => true
  | .ESP_RST_UNKNOWN => true
  | _ => false

/-- `COREDUMP_DEFAULT_CHUNK_SIZE` (3 * 256 = 768). -/
def COREDUMP_DEFAULT_CHUNK_SIZE : Nat := 3 * 256

/-- `_b64_encoded_size`: encoded size of a block of `in_len` bytes,
without NUL terminator. -/
def _b64_encoded_size (in_len : Nat) : Nat :=
  ((in_len + 2) / 3) * 4

/-- `coredump_uploader_info_t`: metadata about the coredump image and its
chunk partitioning. -/
structure coredump_uploader_info where
  flash_addr : Nat
  total_size : Nat
  chunk_size : Nat
  chunk_count : Nat
  last_chunk_size : Nat
  use_base64 : Bool
  b64_total_size : Nat
  b64_chunk_size : Nat
  b64_last_chunk_size : Nat
deriving DecidableEq

/-- The all-zero `coredump_uploader_info_t`, the result of
`memset(out, 0, sizeof(*out))`. -/
def zeroInfo : coredump_uploader_info :=
  { flash_addr := 0, total_size := 0, chunk_size := 0, chunk_count := 0,
    last_chunk_size := 0, use_base64 := false, b64_total_size := 0,
    b64_chunk_size := 0, b64_last_chunk_size := 0 }

/-- Effective raw chunk size (lines 52-59 of `coredump_uploader.c`): 0 means
the compiled default; with Base64 a non-multiple of 3 is rounded down, with a
minimum of 3. -/
def resolvedChunk (desired_chunk_size : Nat) (use_base64 : Bool) : Nat :=
  let chunk0 := if desired_chunk_size ≠ 0 then desired_chunk_size
                else COREDUMP_DEFAULT_CHUNK_SIZE
  if use_base64 = true ∧ chunk0 % 3 ≠ 0 then
    (if chunk0 - chunk0 % 3 = 0 then 3 else chunk0 - chunk0 % 3)
  else chunk0

/-- `coredump_uploader_get_info` for a non-null `out` pointer.  The outcome of
the platform call `esp_core_dump_image_get(&addr, &size)` is passed in as
`imageGet = (err, addr, size)`.  The returned pair is
(status, final contents of `*out`). -/
def coredump_uploader_get_info (imageGet : Int × Nat × Nat)
    (desired_chunk_size : Nat) (use_base64 : Bool) :
    Int × coredump_uploader_info :=
  let err := imageGet.1
  let addr := imageGet.2.1
  let size := imageGet.2.2
  if err ≠ ESP_OK then (err, zeroInfo)
  else if size = 0 then (ESP_ERR_NOT_FOUND, zeroInfo)
  else
    let chunk := resolvedChunk desired_chunk_size use_base64
    let chunk_count := (size + chunk - 1) / chunk
    let last_chunk_size := if size % chunk ≠ 0 then size % chunk else chunk
    let base : coredump_uploader_info :=
      { flash_addr := addr, total_size := size, chunk_size := chunk,
        chunk_count := chunk_count, last_chunk_size := last_chunk_size,
        use_base64 := use_base64, b64_total_size := 0, b64_chunk_size := 0,
        b64_last_chunk_size := 0 }
    if use_base64 = true then
      (ESP_OK,
       { base with
         b64_chunk_size := _b64_encoded_size chunk,
         b64_last_chunk_size := _b64_encoded_size last_chunk_size,
         b64_total_size :=
           if 1 < chunk_count then
             _b64_encoded_size chunk * (chunk_count - 1) +
               _b64_encoded_size last_chunk_size
           else _b64_encoded_size last_chunk_size })
    else (ESP_OK, base)

/-- The resolved chunk size is always positive. -/
theorem resolvedChunk_pos (d : Nat) (b : Bool) : 0 < resolvedChunk d b := by
  unfold resolvedChunk COREDUMP_DEFAULT_CHUNK_SIZE
  dsimp only
  split_ifs <;> omega

/-- Ceiling division written as in the source, characterized by quotient plus
a remainder indicator. -/
theorem ceil_div_char (c t : Nat) (hc : 0 < c) (ht : 0 < t) :
    (t + c - 1) / c = t / c + (if t % c = 0 then 0 else 1) := by
  by_cases h : t % c = 0
  · rw [if_pos h]
    have hdvd : c ∣ t := Nat.dvd_of_mod_eq_zero h
    obtain ⟨q, rfl⟩ := hdvd
    have hq : 0 < q := by
      rcases Nat.eq_zero_or_pos q with h0 | h0
      · subst h0; simp at ht
      · exact h0
    have h1 : c * q + c - 1 = c * q + (c - 1) := by omega
    have h2 : (c - 1) / c = 0 := Nat.div_eq_of_lt (by omega)
    have h3 : c * q / c = q := Nat.mul_div_cancel_left _ hc
    rw [h1, Nat.mul_add_div hc, h2, h3]
  · rw [if_neg h]
    have hr1 : 1 ≤ t % c := Nat.one_le_iff_ne_zero.mpr h
    have hr2 : t % c < c := Nat.mod_lt _ hc
    have hmod : c * (t / c) + t % c = t := Nat.div_add_mod t c
    have h2 : t + c - 1 = c * (t / c) + (t % c + c - 1) := by omega
    have h3 : (t % c + c - 1) / c = 1 :=
      Nat.div_eq_of_lt_le (by omega) (by omega)
    rw [h2, Nat.mul_add_div hc, h3]

/-- The generated chunk geometry tiles the image exactly. -/
theorem chunk_geometry_tiles (c t : Nat) (hc : 0 < c) (ht : 0 < t) :
    c * ((t + c - 1) / c - 1) +
      (if t % c ≠ 0 then t % c else c) = t := by
  by_cases h : t % c = 0
  · rw [ceil_div_char c t hc ht, if_pos h, if_neg (by simp [h]), Nat.add_zero]
    have hdvd : c ∣ t := Nat.dvd_of_mod_eq_zero h
    obtain ⟨q, rfl⟩ := hdvd
    have hq : 0 < q := by
      rcases Nat.eq_zero_or_pos q with h0 | h0
      · subst h0; simp at ht
      · exact h0
    obtain ⟨q', rfl⟩ : ∃ q', q = q' + 1 := ⟨q - 1, by omega⟩
    rw [Nat.mul_div_cancel_left _ hc, Nat.add_sub_cancel, Nat.mul_add,
      Nat.mul_one]
  · rw [ceil_div_char c t hc ht, if_neg h, if_pos h, Nat.add_sub_cancel]
    exact Nat.div_add_mod t c

/-- C3: for every positive image size and every resolved chunk size, the
descriptor from `coredump_uploader_get_info` satisfies
`chunk_size * (chunk_count - 1) + last_chunk_size = total_size`,
`1 ≤ last_chunk_size ≤ chunk_size`, `chunk_count` is the ceiling of
`total_size / chunk_size`, and a zero remainder makes the last chunk full. -/
theorem get_info_chunk_geometry (addr size desired : Nat) (b64 : Bool)
    (hs : 0 < size) :
    (coredump_uploader_get_info (ESP_OK, addr, size) desired b64).1 = ESP_OK ∧
    0 < (coredump_uploader_get_info (ESP_OK, addr, size) desired b64).2.chunk_size ∧
    (coredump_uploader_get_info (ESP_OK, addr, size) desired b64).2.chunk_size *
        ((coredump_uploader_get_info (ESP_OK, addr, size) desired b64).2.chunk_count - 1) +
        (coredump_uploader_get_info (ESP_OK, addr, size) desired b64).2.last_chunk_size =
      (coredump_uploader_get_info (ESP_OK, addr, size) desired b64).2.total_size ∧
    1 ≤ (coredump_uploader_get_info (ESP_OK, addr, size) desired b64).2.last_chunk_size ∧
    (coredump_uploader_get_info (ESP_OK, addr, size) desired b64).2.last_chunk_size ≤
      (coredump_uploader_get_info (ESP_OK, addr, size) desired b64).2.chunk_size ∧
    (coredump_uploader_get_info (ESP_OK, addr, size) desired b64).2.chunk_count =
      (coredump_uploader_get_info (ESP_OK, addr, size) desired b64).2.total_size /
          (coredump_uploader_get_info (ESP_OK, addr, size) desired b64).2.chunk_size +
        (if (coredump_uploader_get_info (ESP_OK, addr, size) desired b64).2.total_size %
            (coredump_uploader_get_info (ESP_OK, addr, size) desired b64).2.chunk_size = 0
         then 0 else 1) ∧
    ((coredump_uploader_get_info (ESP_OK, addr, size) desired b64).2.total_size %
        (coredump_uploader_get_info (ESP_OK, addr, size) desired b64).2.chunk_size = 0 →
      (coredump_uploader_get_info (ESP_OK, addr, size) desired b64).2.last_chunk_size =
        (coredump_uploader_get_info (ESP_OK, addr, size) desired b64).2.chunk_size) ∧
    (coredump_uploader_get_info (ESP_OK, addr, size) desired b64).2.total_size = size := by
  have hc := resolvedChunk_pos desired b64
  set c := resolvedChunk desired b64 with hcdef
  have hfields :
      (coredump_uploader_get_info (ESP_OK, addr, size) desired b64).1 = ESP_OK ∧
      (coredump_uploader_get_info (ESP_OK, addr, size) desired b64).2.chunk_size = c ∧
      (coredump_uploader_get_info (ESP_OK, addr, size) desired b64).2.chunk_count =
        (size + c - 1) / c ∧
      (coredump_uploader_get_info (ESP_OK, addr, size) desired b64).2.last_chunk_size =
        (if size % c ≠ 0 then size % c else c) ∧
      (coredump_uploader_get_info (ESP_OK, addr, size) desired b64).2.total_size = size := by
    unfold coredump_uploader_get_info
    simp only [← hcdef]
    rcases b64 with _ | _ <;>
      simp [ESP_OK, hs.ne']
  obtain ⟨h1, h2, h3, h4, h5⟩ := hfields
  rw [h1, h2, h3, h4, h5]
  refine ⟨rfl, hc, chunk_geometry_tiles c size hc hs, ?_, ?_,
    ceil_div_char c size hc hs, ?_, rfl⟩
  · split
    · have := Nat.one_le_iff_ne_zero.mpr (by assumption)
      omega
    · omega
  · split
    · exact Nat.le_of_lt (Nat.mod_lt _ hc)
    · exact Nat.le_refl c
  · intro h
    rw [if_neg (by simp [h])]

/-- C3 witness at a concrete input (image of 1000 bytes, desired chunk 300). -/
theorem get_info_chunk_geometry_witness :
    0 < 1000 ∧
    (coredump_uploader_get_info (ESP_OK, 4096, 1000) 300 false).2.chunk_size *
        ((coredump_uploader_get_info (ESP_OK, 4096, 1000) 300 false).2.chunk_count - 1) +
        (coredump_uploader_get_info (ESP_OK, 4096, 1000) 300 false).2.last_chunk_size =
      (coredump_uploader_get_info (ESP_OK, 4096, 1000) 300 false).2.total_size :=
  ⟨by decide, (get_info_chunk_geometry 4096 1000 300 false (by decide)).2.2.1⟩

/-- Normal form of the descriptor produced on the success path of
`coredump_uploader_get_info`. -/
def infoFor (addr size desired : Nat) (b64 : Bool) : coredump_uploader_info :=
  let chunk := resolvedChunk desired b64
  let cc := (size + chunk - 1) / chunk
  let last := if size % chunk ≠ 0 then size % chunk else chunk
  { flash_addr := addr, total_size := size, chunk_size := chunk,
    chunk_count := cc, last_chunk_size := last, use_base64 := b64,
    b64_total_size :=
      if b64 = true then
        (if 1 < cc then
          _b64_encoded_size chunk * (cc - 1) + _b64_encoded_size last
         else _b64_encoded_size last)
      else 0,
    b64_chunk_size := if b64 = true then _b64_encoded_size chunk else 0,
    b64_last_chunk_size := if b64 = true then _b64_encoded_size last else 0 }

/-- On a successful platform query with a non-zero image size,
`coredump_uploader_get_info` returns `ESP_OK` and the `infoFor` descriptor. -/
theorem get_info_success (addr size desired : Nat) (b64 : Bool)
    (hs : 0 < size) :
    coredump_uploader_get_info (ESP_OK, addr, size) desired b64 =
      (ESP_OK, infoFor addr size desired b64) := by
  unfold coredump_uploader_get_info infoFor
  rcases b64 with _ | _ <;> simp [ESP_OK, hs.ne']

/-- The chunk count of a non-empty image is at least 1. -/
theorem chunk_count_pos (c t : Nat) (hc : 0 < c) (ht : 0 < t) :
    1 ≤ (t + c - 1) / c := by
  rw [Nat.le_div_iff_mul_le hc]
  omega

/-- C4: with Base64 enabled, the encoded-size fields of the descriptor satisfy
`b64_chunk_size = 4 * ceil(chunk_size / 3)`,
`b64_last_chunk_size = 4 * ceil(last_chunk_size / 3)`, and
`b64_total_size = b64_chunk_size * (chunk_count - 1) + b64_last_chunk_size`. -/
theorem get_info_b64_sizes (addr size desired : Nat) (hs : 0 < size) :
    (coredump_uploader_get_info (ESP_OK, addr, size) desired true).2.b64_chunk_size =
      4 * (((coredump_uploader_get_info (ESP_OK, addr, size) desired true).2.chunk_size + 2) / 3) ∧
    (coredump_uploader_get_info (ESP_OK, addr, size) desired true).2.b64_last_chunk_size =
      4 * (((coredump_uploader_get_info (ESP_OK, addr, size) desired true).2.last_chunk_size + 2) / 3) ∧
    (coredump_uploader_get_info (ESP_OK, addr, size) desired true).2.b64_total_size =
      (coredump_uploader_get_info (ESP_OK, addr, size) desired true).2.b64_chunk_size *
          ((coredump_uploader_get_info (ESP_OK, addr, size) desired true).2.chunk_count - 1) +
        (coredump_uploader_get_info (ESP_OK, addr, size) desired true).2.b64_last_chunk_size := by
  rw [get_info_success addr size desired true hs]
  have hc := resolvedChunk_pos desired true
  have hcc := chunk_count_pos (resolvedChunk desired true) size hc hs
  dsimp only
  have e1 : (infoFor addr size desired true).b64_chunk_size =
      _b64_encoded_size (resolvedChunk desired true) := rfl
  have e2 : (infoFor addr size desired true).chunk_size =
      resolvedChunk desired true := rfl
  have e3 : (infoFor addr size desired true).chunk_count =
      (size + resolvedChunk desired true - 1) / resolvedChunk desired true := rfl
  have e4 : (infoFor addr size desired true).b64_last_chunk_size =
      _b64_encoded_size ((infoFor addr size desired true).last_chunk_size) := rfl
  have e6 : (infoFor addr size desired true).b64_total_size =
      (if 1 < (size + resolvedChunk desired true - 1) / resolvedChunk desired true
       then _b64_encoded_size (resolvedChunk desired true) *
              ((size + resolvedChunk desired true - 1) / resolvedChunk desired true - 1) +
            _b64_encoded_size ((infoFor addr size desired true).last_chunk_size)
       else _b64_encoded_size ((infoFor addr size desired true).last_chunk_size)) := rfl
  refine ⟨?_, ?_, ?_⟩
  · rw [e1, e2]
    exact Nat.mul_comm _ 4
  · rw [e4]
    exact Nat.mul_comm _ 4
  · rw [e6, e1, e3, e4]
    split_ifs with h
    · rfl
    · have h1 : (size + resolvedChunk desired true - 1) / resolvedChunk desired true = 1 := by
        omega
      rw [h1]
      simp

/-- C4 witness at a concrete input (1000-byte image, chunk 300, Base64). -/
theorem get_info_b64_sizes_witness :
    0 < 1000 ∧
    (coredump_uploader_get_info (ESP_OK, 4096, 1000) 300 true).2.b64_total_size =
      (coredump_uploader_get_info (ESP_OK, 4096, 1000) 300 true).2.b64_chunk_size *
          ((coredump_uploader_get_info (ESP_OK, 4096, 1000) 300 true).2.chunk_count - 1) +
        (coredump_uploader_get_info (ESP_OK, 4096, 1000) 300 true).2.b64_last_chunk_size :=
  ⟨by decide, (get_info_b64_sizes 4096 1000 300 (by decide)).2.2⟩

/-- The resolved chunk size agrees with its specification-side description:
default 768 when 0 is passed; with Base64, non-multiples of 3 are rounded
down with a minimum of 3. -/
theorem resolvedChunk_spec (d : Nat) (b : Bool) :
    resolvedChunk d b =
      (if b = true ∧ (if d = 0 then 768 else d) % 3 ≠ 0 then
        max 3 (3 * ((if d = 0 then 768 else d) / 3))
       else (if d = 0 then 768 else d)) := by
  unfold resolvedChunk COREDUMP_DEFAULT_CHUNK_SIZE
  dsimp only
  have hbase : (if d ≠ 0 then d else 768) = (if d = 0 then 768 else d) := by
    by_cases hd : d = 0 <;> simp [hd]
  rw [hbase]
  set c0 := if d = 0 then 768 else d with hc0
  by_cases hb : b = true ∧ c0 % 3 ≠ 0
  · rw [if_pos hb, if_pos hb]
    obtain ⟨hb1, hb2⟩ := hb
    have hdm : 3 * (c0 / 3) + c0 % 3 = c0 := Nat.div_add_mod c0 3
    split_ifs with h0 <;> omega
  · rw [if_neg hb, if_neg hb]

/-- C5: the effective raw chunk size resolution of
`coredump_uploader_get_info`: 0 means the default 768; with Base64 a
non-multiple of 3 is rounded down to a multiple of 3, with minimum 3; in
particular desired 2 or 1 with Base64 yield 3. -/
theorem get_info_chunk_resolution (addr size desired : Nat) (b64 : Bool)
    (hs : 0 < size) :
    ((coredump_uploader_get_info (ESP_OK, addr, size) desired b64).2.chunk_size =
      (if b64 = true ∧ (if desired = 0 then 768 else desired) % 3 ≠ 0 then
        max 3 (3 * ((if desired = 0 then 768 else desired) / 3))
       else (if desired = 0 then 768 else desired))) ∧
    (coredump_uploader_get_info (ESP_OK, addr, size) 0 b64).2.chunk_size = 768 ∧
    (coredump_uploader_get_info (ESP_OK, addr, size) 2 true).2.chunk_size = 3 ∧
    (coredump_uploader_get_info (ESP_OK, addr, size) 1 true).2.chunk_size = 3 := by
  refine ⟨?_, ?_, ?_, ?_⟩ <;>
    rw [get_info_success _ _ _ _ hs]
  · exact resolvedChunk_spec desired b64
  · rw [show (infoFor addr size 0 b64).chunk_size = resolvedChunk 0 b64 from rfl,
      resolvedChunk_spec]
    rcases b64 with _ | _ <;> simp
  · rw [show (infoFor addr size 2 true).chunk_size = resolvedChunk 2 true from rfl,
      resolvedChunk_spec]
    simp
  · rw [show (infoFor addr size 1 true).chunk_size = resolvedChunk 1 true from rfl,
      resolvedChunk_spec]
    simp

/-- C5 witness at a concrete input. -/
theorem get_info_chunk_resolution_witness :
    0 < 5 ∧
    (coredump_uploader_get_info (ESP_OK, 0, 5) 0 false).2.chunk_size = 768 ∧
    (coredump_uploader_get_info (ESP_OK, 0, 5) 2 true).2.chunk_size = 3 :=
  ⟨by decide,
   (get_info_chunk_resolution 0 5 0 false (by decide)).2.1,
   (get_info_chunk_resolution 0 5 0 false (by decide)).2.2.1⟩

/-- C9: `coredump_uploader_need_upload` returns true exactly for
panic, interrupt watchdog, task watchdog, generic watchdog and unknown
reset reasons, and false for power-on, software reset, deep-sleep wake and
every other cause. -/
theorem need_upload_classification :
    (∀ r : esp_reset_reason_t,
      coredump_uploader_need_upload r = true ↔
        (r = .ESP_RST_PANIC ∨ r = .ESP_RST_INT_WDT ∨ r = .ESP_RST_TASK_WDT ∨
         r = .ESP_RST_WDT ∨ r = .ESP_RST_UNKNOWN)) ∧
    coredump_uploader_need_upload .ESP_RST_POWERON = false ∧
    coredump_uploader_need_upload .ESP_RST_SW = false ∧
    coredump_uploader_need_upload .ESP_RST_DEEPSLEEP = false ∧
    (∀ r : esp_reset_reason_t,
      coredump_uploader_need_upload r = coredump_uploader_need_upload r) :=
  ⟨fun r => by cases r <;> simp [coredump_uploader_need_upload],
   rfl, rfl, rfl, fun _ => rfl⟩

/-- C10: `coredump_uploader_get_info` zeroes the output struct first, so on
the platform-error return and on the empty-image return the caller's struct
is all-zero, and without Base64 the three `b64_*` fields are 0. -/
theorem get_info_zeroes_output (imageGet : Int × Nat × Nat)
    (desired : Nat) (b64 : Bool) :
    (imageGet.1 ≠ ESP_OK →
      coredump_uploader_get_info imageGet desired b64 = (imageGet.1, zeroInfo)) ∧
    (imageGet.1 = ESP_OK → imageGet.2.2 = 0 →
      coredump_uploader_get_info imageGet desired b64 =
        (ESP_ERR_NOT_FOUND, zeroInfo)) ∧
    (b64 = false →
      (coredump_uploader_get_info imageGet desired b64).2.b64_chunk_size = 0 ∧
      (coredump_uploader_get_info imageGet desired b64).2.b64_last_chunk_size = 0 ∧
      (coredump_uploader_get_info imageGet desired b64).2.b64_total_size = 0) := by
  refine ⟨fun he => ?_, fun he h0 => ?_, fun hb => ?_⟩
  · unfold coredump_uploader_get_info
    rw [if_pos he]
  · unfold coredump_uploader_get_info
    rw [if_neg (by simp [he]), if_pos h0]
  · subst hb
    by_cases he : imageGet.1 = ESP_OK
    · by_cases h0 : imageGet.2.2 = 0
      · unfold coredump_uploader_get_info
        rw [if_neg (by simp [he]), if_pos h0]
        exact ⟨rfl, rfl, rfl⟩
      · unfold coredump_uploader_get_info
        rw [if_neg (by simp [he]), if_neg h0]
        exact ⟨rfl, rfl, rfl⟩
    · unfold coredump_uploader_get_info
      rw [if_pos (he : imageGet.1 ≠ ESP_OK)]
      exact ⟨rfl, rfl, rfl⟩

/-- C10 witness: a failing platform query leaves the struct all-zero. -/
theorem get_info_zeroes_output_witness :
    (ESP_FAIL, (3 : Nat), (5 : Nat)).1 ≠ ESP_OK ∧
    coredump_uploader_get_info (ESP_FAIL, 3, 5) 0 false = (ESP_FAIL, zeroInfo) :=
  ⟨by decide, (get_info_zeroes_output (ESP_FAIL, 3, 5) 0 false).1 (by decide)⟩

/-- One sextet value to a Base64 alphabet character code (RFC 4648). -/
def b64char (n : Nat) : Nat :=
  if n < 26 then 65 + n
  else if n < 52 then 97 + (n - 26)
  else if n < 62 then 48 + (n - 52)
  else if n = 62 then 43
  else 47

/-- RFC 4648 Base64 encoding of a byte list, with `=` padding (char 61),
modelling `mbedtls_base64_encode`'s output buffer contents. -/
def b64encode : List Nat → List Nat
  | [] => []
  | [a] => [b64char (a / 4), b64char (a % 4 * 16), 61, 61]
  | [a, b] => [b64char (a / 4), b64char (a % 4 * 16 + b / 16),
               b64char (b % 16 * 4), 61]
  | a :: b :: c :: rest =>
      b64char (a / 4) :: b64char (a % 4 * 16 + b / 16) ::
      b64char (b % 16 * 4 + c / 64) :: b64char (c % 64) :: b64encode rest

/-- Calls the engine makes to the outside world, in order: buffer
allocations and releases, the `start`/`write`/`progress`/`end` callbacks, the
per-chunk flash reads (chunk index, absolute address, length), and the final
image erase. -/
inductive Event where
  | alloc : Nat → Event
  | free : Nat → Event
  | start : Event
  | read : Nat → Nat → Nat → Event
  | write : List Nat → Event
  | progress : Nat → Nat → Event
  | endCb : Event
  | erase : Event
deriving DecidableEq

/-- Environment of one `coredump_upload` run: which optional callbacks the
`coredump_uploader_callbacks_t` struct carries (`write` is required and always
present), and the status each external call returns — callback results per
chunk index, the `esp_flash_read` result per chunk, the
`mbedtls_base64_encode` result per chunk, and the `esp_core_dump_image_erase`
result. -/
structure UploadEnv where
  hasStart : Bool
  hasEnd : Bool
  hasProgress : Bool
  startRet : Int
  writeRet : Nat → Int
  progressRet : Nat → Int
  endRet : Int
  readRet : Nat → Int
  b64Ret : Nat → Int
  eraseRet : Int

/-- `bytes_to_read` for chunk `i` (line 137 of `coredump_uploader.c`). -/
def bytesToRead (info : coredump_uploader_info) (i : Nat) : Nat :=
  if i = info.chunk_count - 1 then info.last_chunk_size else info.chunk_size

/-- The raw bytes of chunk `i`, read from
`flash_addr + i * chunk_size` (line 139). -/
def rawChunk (flash : Nat → Nat) (info : coredump_uploader_info) (i : Nat) :
    List Nat :=
  (List.range (bytesToRead info i)).map
    (fun j => flash (info.flash_addr + i * info.chunk_size + j))

/-- The bytes handed to the `write` callback for chunk `i` (lines 145-157):
the raw chunk, or its Base64 encoding when `use_base64`. -/
def payloadOf (flash : Nat → Nat) (info : coredump_uploader_info) (i : Nat) :
    List Nat :=
  if info.use_base64 = true then b64encode (rawChunk flash info i)
  else rawChunk flash info i

/-- One iteration of the send loop (lines 135-173): flash read, optional
Base64 encode, `write`, optional `progress`; the first failing call breaks
the loop with its status. -/
def runChunk (env : UploadEnv) (flash : Nat → Nat)
    (info : coredump_uploader_info) (i : Nat) : Int × List Event :=
  let rEv := Event.read i (info.flash_addr + i * info.chunk_size)
    (bytesToRead info i)
  if env.readRet i ≠ 0 then (env.readRet i, [rEv])
  else if info.use_base64 = true ∧ env.b64Ret i ≠ 0 then (ESP_FAIL, [rEv])
  else if env.writeRet i ≠ 0 then
    (env.writeRet i, [rEv, Event.write (payloadOf flash info i)])
  else if env.hasProgress = true then
    (env.progressRet i,
     [rEv, Event.write (payloadOf flash info i),
      Event.progress i (payloadOf flash info i).length])
  else (0, [rEv, Event.write (payloadOf flash info i)])

/-- The send loop from chunk `i` with `k` chunks left to process. -/
def uploadFrom (env : UploadEnv) (flash : Nat → Nat)
    (info : coredump_uploader_info) : Nat → Nat → Int × List Event
  | _, 0 => (0, [])
  | i, k + 1 =>
      let r := runChunk env flash info i
      if r.1 = 0 then
        let rest := uploadFrom env flash info (i + 1) k
        (rest.1, r.2 ++ rest.2)
      else r

/-- The whole send loop (`for chunk_index = 0 .. chunk_count - 1`). -/
def uploadLoop (env : UploadEnv) (flash : Nat → Nat)
    (info : coredump_uploader_info) : Int × List Event :=
  uploadFrom env flash info 0 info.chunk_count

/-- Buffer allocations made up front: the read buffer, plus the Base64
buffer iff `use_base64` (lines 99-117). -/
def allocEvs (info : coredump_uploader_info) : List Event :=
  Event.alloc 0 :: (if info.use_base64 = true then [Event.alloc 1] else [])

/-- Buffer releases on exit: every allocated buffer is released
(lines 126-129 and 195-198). -/
def freeEvs (info : coredump_uploader_info) : List Event :=
  Event.free 0 :: (if info.use_base64 = true then [Event.free 1] else [])

/-- The `start` callback is present and returns non-OK (lines 122-131). -/
def startFailed (env : UploadEnv) : Prop :=
  env.hasStart = true ∧ env.startRet ≠ 0

instance (env : UploadEnv) : Decidable (startFailed env) := by
  unfold startFailed
  infer_instance

/-- The `start` event, iff the callback slot is present. -/
def startEvs (env : UploadEnv) : List Event :=
  if env.hasStart = true then [Event.start] else []

/-- The `end` event, iff the callback slot is present (lines 176-182). -/
def endEvs (env : UploadEnv) : List Event :=
  if env.hasEnd = true then [Event.endCb] else []

/-- The session status after the `end` callback: when the loop succeeded and
`end` failed, the `end` status; otherwise the loop status (lines 176-182). -/
def sessionErr (env : UploadEnv) (flash : Nat → Nat)
    (info : coredump_uploader_info) : Int :=
  if env.hasEnd = true ∧ (uploadLoop env flash info).1 = 0 ∧ env.endRet ≠ 0
  then env.endRet
  else (uploadLoop env flash info).1

/-- Result of one `coredump_upload` run: the returned `esp_err_t` and the
ordered trace of external calls. -/
structure UploadResult where
  err : Int
  trace : List Event
deriving DecidableEq

/-- `coredump_upload` for a callbacks struct with a non-null `write`, run on
a given descriptor: start callback, send loop, end callback, and the erase
performed only when no prior error occurred (lines 119-199). -/
def coredump_upload (env : UploadEnv) (flash : Nat → Nat)
    (info : coredump_uploader_info) : UploadResult :=
  if startFailed env then
    { err := env.startRet,
      trace := allocEvs info ++ [Event.start] ++ freeEvs info }
  else if sessionErr env flash info = 0 then
    { err := if env.eraseRet ≠ 0 then env.eraseRet else 0,
      trace := allocEvs info ++ startEvs env ++ (uploadLoop env flash info).2 ++
        endEvs env ++ [Event.erase] ++ freeEvs info }
  else
    { err := sessionErr env flash info,
      trace := allocEvs info ++ startEvs env ++ (uploadLoop env flash info).2 ++
        endEvs env ++ freeEvs info }

/-- Concatenation of the payloads of the `write` events of a trace, in call
order: the bytes the host observes on the wire. -/
def writesConcat : List Event → List Nat
  | [] => []
  | .write d :: rest => d ++ writesConcat rest
  | _ :: rest => writesConcat rest

/-- The (address, length) pairs of the flash reads of a trace, in call order. -/
def readsOf : List Event → List (Nat × Nat)
  | [] => []
  | .read _ a l :: rest => (a, l) :: readsOf rest
  | _ :: rest => readsOf rest

/-- The sub-trace a stubbed host observes: callback invocations and the
erase, without the flash reads and buffer bookkeeping. -/
def hostEvents : List Event → List Event
  | [] => []
  | .read _ _ _ :: rest => hostEvents rest
  | .alloc _ :: rest => hostEvents rest
  | .free _ :: rest => hostEvents rest
  | e :: rest => e :: hostEvents rest

/-- The raw image bytes at addresses `a .. a + n`. -/
def imageBytes (flash : Nat → Nat) (a n : Nat) : List Nat :=
  (List.range n).map (fun j => flash (a + j))

/-- Well-formed descriptor: the invariants any descriptor produced by
`coredump_uploader_get_info` satisfies. -/
def infoWF (info : coredump_uploader_info) : Prop :=
  0 < info.chunk_size ∧ 0 < info.chunk_count ∧
  0 < info.last_chunk_size ∧ info.last_chunk_size ≤ info.chunk_size ∧
  info.total_size = info.chunk_size * (info.chunk_count - 1) + info.last_chunk_size

instance (info : coredump_uploader_info) : Decidable (infoWF info) := by
  unfold infoWF
  infer_instance

/-- All external calls of chunk `i` succeed: the flash read, the Base64
encode when enabled, the `write`, and the `progress` when present. -/
def chunkOk (env : UploadEnv) (b64 : Bool) (i : Nat) : Prop :=
  env.readRet i = 0 ∧ (b64 = true → env.b64Ret i = 0) ∧
  env.writeRet i = 0 ∧ (env.hasProgress = true → env.progressRet i = 0)

instance (env : UploadEnv) (b64 : Bool) (i : Nat) :
    Decidable (chunkOk env b64 i) := by
  unfold chunkOk
  infer_instance

/-- Every callback and platform call of the whole session succeeds. -/
def allOk (env : UploadEnv) (info : coredump_uploader_info) : Prop :=
  (env.hasStart = true → env.startRet = 0) ∧
  (∀ i, i < info.chunk_count → chunkOk env info.use_base64 i) ∧
  (env.hasEnd = true → env.endRet = 0)

instance (env : UploadEnv) (info : coredump_uploader_info) :
    Decidable (allOk env info) := by
  unfold allOk
  infer_instance

/-- The events of one fully successful loop iteration. -/
def chunkBlock (env : UploadEnv) (flash : Nat → Nat)
    (info : coredump_uploader_info) (i : Nat) : List Event :=
  Event.read i (info.flash_addr + i * info.chunk_size) (bytesToRead info i) ::
  Event.write (payloadOf flash info i) ::
  (if env.hasProgress = true then
    [Event.progress i (payloadOf flash info i).length]
   else [])

/-- The events of a fully successful run of the loop from chunk `i`,
`k` chunks remaining. -/
def blocksFrom (env : UploadEnv) (flash : Nat → Nat)
    (info : coredump_uploader_info) : Nat → Nat → List Event
  | _, 0 => []
  | i, k + 1 => chunkBlock env flash info i ++ blocksFrom env flash info (i + 1) k

theorem uploadFrom_zero (env : UploadEnv) (flash : Nat → Nat)
    (info : coredump_uploader_info) (i : Nat) :
    uploadFrom env flash info i 0 = (0, []) := rfl

theorem uploadFrom_succ (env : UploadEnv) (flash : Nat → Nat)
    (info : coredump_uploader_info) (i k : Nat) :
    uploadFrom env flash info i (k + 1) =
      if (runChunk env flash info i).1 = 0 then
        ((uploadFrom env flash info (i + 1) k).1,
         (runChunk env flash info i).2 ++ (uploadFrom env flash info (i + 1) k).2)
      else runChunk env flash info i := rfl

theorem blocksFrom_succ (env : UploadEnv) (flash : Nat → Nat)
    (info : coredump_uploader_info) (i k : Nat) :
    blocksFrom env flash info i (k + 1) =
      chunkBlock env flash info i ++ blocksFrom env flash info (i + 1) k := rfl

/-- The loop body reports success exactly when all four calls of the
iteration succeed. -/
theorem runChunk_fst_zero_iff (env : UploadEnv) (flash : Nat → Nat)
    (info : coredump_uploader_info) (i : Nat) :
    (runChunk env flash info i).1 = 0 ↔ chunkOk env info.use_base64 i := by
  unfold runChunk chunkOk
  dsimp only
  split_ifs with h1 h2 h3 h4
  · exact iff_of_false h1 (fun hc => h1 hc.1)
  · have hne : ESP_FAIL ≠ 0 := by decide
    exact iff_of_false hne (fun hc => h2.2 (hc.2.1 h2.1))
  · exact iff_of_false h3 (fun hc => h3 hc.2.2.1)
  · constructor
    · intro hp
      exact ⟨not_not.mp h1, fun hb => not_not.mp (fun hn => h2 ⟨hb, hn⟩),
        not_not.mp h3, fun _ => hp⟩
    · intro hc
      exact hc.2.2.2 h4
  · exact iff_of_true rfl
      ⟨not_not.mp h1, fun hb => not_not.mp (fun hn => h2 ⟨hb, hn⟩),
       not_not.mp h3, fun hp => absurd hp h4⟩

/-- A successful loop body emits exactly the full per-chunk block. -/
theorem runChunk_char (env : UploadEnv) (flash : Nat → Nat)
    (info : coredump_uploader_info) (i : Nat)
    (h : (runChunk env flash info i).1 = 0) :
    runChunk env flash info i = (0, chunkBlock env flash info i) := by
  obtain ⟨h1, h2, h3, h4⟩ := (runChunk_fst_zero_iff env flash info i).mp h
  unfold runChunk chunkBlock
  dsimp only
  rw [if_neg (fun hn => hn h1), if_neg (fun hb => hb.2 (h2 hb.1)),
    if_neg (fun hn => hn h3)]
  by_cases hp : env.hasProgress = true
  · rw [if_pos hp, if_pos hp, h4 hp]
  · rw [if_neg hp, if_neg hp]

theorem runChunk_snd_of_zero (env : UploadEnv) (flash : Nat → Nat)
    (info : coredump_uploader_info) (i : Nat)
    (h : (runChunk env flash info i).1 = 0) :
    (runChunk env flash info i).2 = chunkBlock env flash info i := by
  rw [runChunk_char env flash info i h]

/-- The loop from chunk `i` succeeds exactly when every remaining chunk's
calls all succeed. -/
theorem uploadFrom_fst_zero_iff (env : UploadEnv) (flash : Nat → Nat)
    (info : coredump_uploader_info) :
    ∀ k i, ((uploadFrom env flash info i k).1 = 0 ↔
      ∀ j, j < k → chunkOk env info.use_base64 (i + j)) := by
  intro k
  induction k with
  | zero =>
    intro i
    simp [uploadFrom_zero]
  | succ k ih =>
    intro i
    rw [uploadFrom_succ]
    by_cases hz : (runChunk env flash info i).1 = 0
    · rw [if_pos hz]
      constructor
      · intro hrest j hj
        rcases Nat.eq_zero_or_pos j with rfl | hpos
        · simpa using (runChunk_fst_zero_iff env flash info i).mp hz
        · have h1 := ((ih (i + 1)).mp hrest) (j - 1) (by omega)
          have e : i + 1 + (j - 1) = i + j := by omega
          rwa [e] at h1
      · intro hall
        refine (ih (i + 1)).mpr (fun j hj => ?_)
        have h1 := hall (j + 1) (by omega)
        have e : i + (j + 1) = i + 1 + j := by omega
        rwa [e] at h1
    · rw [if_neg hz]
      constructor
      · intro h
        exact absurd h hz
      · intro hall
        exact (runChunk_fst_zero_iff env flash info i).mpr
          (by simpa using hall 0 (by omega))

/-- A fully successful loop returns 0 with exactly the full block trace. -/
theorem uploadFrom_snd_ok (env : UploadEnv) (flash : Nat → Nat)
    (info : coredump_uploader_info) :
    ∀ k i, (∀ j, j < k → chunkOk env info.use_base64 (i + j)) →
      uploadFrom env flash info i k = (0, blocksFrom env flash info i k) := by
  intro k
  induction k with
  | zero =>
    intro i _
    rfl
  | succ k ih =>
    intro i hall
    have hz : (runChunk env flash info i).1 = 0 :=
      (runChunk_fst_zero_iff env flash info i).mpr
        (by simpa using hall 0 (by omega))
    have hrest : uploadFrom env flash info (i + 1) k =
        (0, blocksFrom env flash info (i + 1) k) :=
      ih (i + 1) (fun j hj => by
        have h1 := hall (j + 1) (by omega)
        have e : i + (j + 1) = i + 1 + j := by omega
        rwa [e] at h1)
    rw [uploadFrom_succ, if_pos hz, hrest, runChunk_char env flash info i hz,
      blocksFrom_succ]

theorem hostEvents_append (a b : List Event) :
    hostEvents (a ++ b) = hostEvents a ++ hostEvents b := by
  induction a with
  | nil => rfl
  | cons e rest ih => cases e <;> simp [hostEvents, ih]

theorem writesConcat_append (a b : List Event) :
    writesConcat (a ++ b) = writesConcat a ++ writesConcat b := by
  induction a with
  | nil => rfl
  | cons e rest ih => cases e <;> simp [writesConcat, ih]

theorem readsOf_append (a b : List Event) :
    readsOf (a ++ b) = readsOf a ++ readsOf b := by
  induction a with
  | nil => rfl
  | cons e rest ih => cases e <;> simp [readsOf, ih]

/-- The host-visible events of an interrupted loop iteration are an initial
segment of the host-visible events of a full iteration. -/
theorem hostEvents_runChunk_pre (env : UploadEnv) (flash : Nat → Nat)
    (info : coredump_uploader_info) (i : Nat) :
    ∃ t, hostEvents (runChunk env flash info i).2 ++ t =
      hostEvents (chunkBlock env flash info i) := by
  unfold runChunk chunkBlock
  dsimp only
  split_ifs <;> exact ⟨_, rfl⟩

/-- The host-visible events of the loop are an initial segment of the
host-visible events of a fully successful loop. -/
theorem hostEvents_uploadFrom_pre (env : UploadEnv) (flash : Nat → Nat)
    (info : coredump_uploader_info) :
    ∀ k i, ∃ t, hostEvents (uploadFrom env flash info i k).2 ++ t =
      hostEvents (blocksFrom env flash info i k) := by
  intro k
  induction k with
  | zero =>
    intro i
    exact ⟨[], rfl⟩
  | succ k ih =>
    intro i
    rw [uploadFrom_succ, blocksFrom_succ, hostEvents_append]
    by_cases hz : (runChunk env flash info i).1 = 0
    · rw [if_pos hz]
      dsimp only
      rw [runChunk_snd_of_zero env flash info i hz, hostEvents_append]
      obtain ⟨t, ht⟩ := ih (i + 1)
      exact ⟨t, by rw [List.append_assoc, ht]⟩
    · rw [if_neg hz]
      obtain ⟨t, ht⟩ := hostEvents_runChunk_pre env flash info i
      exact ⟨t ++ hostEvents (blocksFrom env flash info (i + 1) k),
        by rw [← List.append_assoc, ht]⟩

theorem runChunk_no_erase (env : UploadEnv) (flash : Nat → Nat)
    (info : coredump_uploader_info) (i : Nat) :
    Event.erase ∉ (runChunk env flash info i).2 := by
  unfold runChunk
  dsimp only
  split_ifs <;> simp

theorem uploadFrom_no_erase (env : UploadEnv) (flash : Nat → Nat)
    (info : coredump_uploader_info) :
    ∀ k i, Event.erase ∉ (uploadFrom env flash info i k).2 := by
  intro k
  induction k with
  | zero =>
    intro i
    simp [uploadFrom_zero]
  | succ k ih =>
    intro i
    rw [uploadFrom_succ]
    by_cases hz : (runChunk env flash info i).1 = 0
    · rw [if_pos hz]
      dsimp only
      intro hm
      rcases List.mem_append.mp hm with hm | hm
      · exact runChunk_no_erase env flash info i hm
      · exact ih (i + 1) hm
    · rw [if_neg hz]
      exact runChunk_no_erase env flash info i

theorem no_erase_allocEvs (info : coredump_uploader_info) :
    Event.erase ∉ allocEvs info := by
  unfold allocEvs
  split_ifs <;> simp

theorem no_erase_freeEvs (info : coredump_uploader_info) :
    Event.erase ∉ freeEvs info := by
  unfold freeEvs
  split_ifs <;> simp

theorem no_erase_startEvs (env : UploadEnv) :
    Event.erase ∉ startEvs env := by
  unfold startEvs
  split_ifs <;> simp

theorem no_erase_endEvs (env : UploadEnv) :
    Event.erase ∉ endEvs env := by
  unfold endEvs
  split_ifs <;> simp

/-- The status after the end callback is OK exactly when the loop succeeded
and the end callback (when present) succeeded. -/
theorem sessionErr_eq_zero_iff (env : UploadEnv) (flash : Nat → Nat)
    (info : coredump_uploader_info) :
    sessionErr env flash info = 0 ↔
      ((uploadLoop env flash info).1 = 0 ∧
       (env.hasEnd = true → env.endRet = 0)) := by
  unfold sessionErr
  split_ifs with h
  · obtain ⟨hEnd, hL, hEr⟩ := h
    constructor
    · intro h0
      exact absurd h0 hEr
    · rintro ⟨_, h2⟩
      exact absurd (h2 hEnd) hEr
  · constructor
    · intro h0
      refine ⟨h0, fun hEnd => ?_⟩
      by_contra hn
      exact h ⟨hEnd, h0, hn⟩
    · rintro ⟨h1, _⟩
      exact h1

/-- The erase primitive is called exactly on runs where start did not fail
and the session status after the end callback is OK. -/
theorem erase_mem_iff (env : UploadEnv) (flash : Nat → Nat)
    (info : coredump_uploader_info) :
    Event.erase ∈ (coredump_upload env flash info).trace ↔
      (¬ startFailed env ∧ sessionErr env flash info = 0) := by
  unfold coredump_upload
  by_cases h1 : startFailed env
  · rw [if_pos h1]
    refine iff_of_false (fun hm => ?_) (fun hc => absurd h1 hc.1)
    rcases List.mem_append.mp hm with hm | hm
    · rcases List.mem_append.mp hm with hm | hm
      · exact no_erase_allocEvs info hm
      · simp at hm
    · exact no_erase_freeEvs info hm
  · rw [if_neg h1]
    by_cases h2 : sessionErr env flash info = 0
    · rw [if_pos h2]
      refine iff_of_true ?_ ⟨h1, h2⟩
      simp [List.mem_append]
    · rw [if_neg h2]
      refine iff_of_false (fun hm => ?_) (fun hc => absurd hc.2 h2)
      rcases List.mem_append.mp hm with hm | hm
      · rcases List.mem_append.mp hm with hm | hm
        · rcases List.mem_append.mp hm with hm | hm
          · rcases List.mem_append.mp hm with hm | hm
            · exact no_erase_allocEvs info hm
            · exact no_erase_startEvs env hm
          · exact uploadFrom_no_erase env flash info info.chunk_count 0 hm
        · exact no_erase_endEvs env hm
      · exact no_erase_freeEvs info hm

/-- C2: the erase primitive runs iff the start callback (when present),
every flash read, every Base64 encode, every write, every progress callback
(when present) and the end callback (when present) all return OK; on such a
run a failing erase is surfaced as the returned status, and on every other
run (no erase, image intact) a non-zero status is returned. -/
theorem erase_iff_all_ok (env : UploadEnv) (flash : Nat → Nat)
    (info : coredump_uploader_info) :
    (Event.erase ∈ (coredump_upload env flash info).trace ↔ allOk env info) ∧
    (Event.erase ∈ (coredump_upload env flash info).trace →
      (coredump_upload env flash info).err =
        (if env.eraseRet ≠ 0 then env.eraseRet else 0)) ∧
    (Event.erase ∉ (coredump_upload env flash info).trace →
      (coredump_upload env flash info).err ≠ 0) := by
  have hiff : (¬ startFailed env ∧ sessionErr env flash info = 0) ↔
      allOk env info := by
    unfold allOk startFailed
    rw [sessionErr_eq_zero_iff]
    unfold uploadLoop
    rw [uploadFrom_fst_zero_iff]
    constructor
    · rintro ⟨hns, ⟨hloop, hend⟩⟩
      refine ⟨fun hs => not_not.mp (fun hn => hns ⟨hs, hn⟩),
        fun i hi => ?_, hend⟩
      simpa using hloop i hi
    · rintro ⟨hstart, hchunks, hend⟩
      exact ⟨fun hc => hc.2 (hstart hc.1),
        ⟨fun j hj => by simpa using hchunks j hj, hend⟩⟩
  refine ⟨(erase_mem_iff env flash info).trans hiff, ?_, ?_⟩
  · intro hm
    have hc := (erase_mem_iff env flash info).mp hm
    unfold coredump_upload
    rw [if_neg hc.1, if_pos hc.2]
  · intro hnm
    have hn : ¬ (¬ startFailed env ∧ sessionErr env flash info = 0) :=
      fun hc => hnm ((erase_mem_iff env flash info).mpr hc)
    unfold coredump_upload
    by_cases h1 : startFailed env
    · rw [if_pos h1]
      exact h1.2
    · have h2 : sessionErr env flash info ≠ 0 := fun hs => hn ⟨h1, hs⟩
      rw [if_neg h1, if_neg h2]
      exact h2

/-- Flash contents used in the concrete witnesses. -/
def flash0 : Nat → Nat := fun a => (a + 7) % 256

/-- A well-formed two-chunk descriptor (5 bytes, chunks of 3 and 2). -/
def info2 : coredump_uploader_info :=
  { flash_addr := 64, total_size := 5, chunk_size := 3, chunk_count := 2,
    last_chunk_size := 2, use_base64 := false, b64_total_size := 0,
    b64_chunk_size := 0, b64_last_chunk_size := 0 }

/-- All callbacks present and succeeding, erase failing with status 7. -/
def envOkE : UploadEnv :=
  { hasStart := true, hasEnd := true, hasProgress := true, startRet := 0,
    writeRet := fun _ => 0, progressRet := fun _ => 0, endRet := 0,
    readRet := fun _ => 0, b64Ret := fun _ => 0, eraseRet := 7 }

/-- C2 witness: on an all-OK run over `info2`, erase is invoked and its
failure status 7 is the value returned. -/
theorem erase_iff_all_ok_witness :
    Event.erase ∈ (coredump_upload envOkE flash0 info2).trace ∧
    (coredump_upload envOkE flash0 info2).err = 7 := by
  have hm : Event.erase ∈ (coredump_upload envOkE flash0 info2).trace :=
    (erase_iff_all_ok envOkE flash0 info2).1.mpr (by decide)
  refine ⟨hm, ?_⟩
  have h := (erase_iff_all_ok envOkE flash0 info2).2.1 hm
  rw [h]
  decide

/-- C7: a present, failing `start` callback makes `coredump_upload` return
its status immediately: the trace holds only the buffer allocations, the
`start` call and the buffer releases — no flash read, no `write`, no
`progress`, no `end`, no erase — and both buffers are released. -/
theorem start_failure_aborts (env : UploadEnv) (flash : Nat → Nat)
    (info : coredump_uploader_info)
    (hS : env.hasStart = true) (hf : env.startRet ≠ 0) :
    (coredump_upload env flash info).err = env.startRet ∧
    (coredump_upload env flash info).trace =
      allocEvs info ++ [Event.start] ++ freeEvs info ∧
    hostEvents (coredump_upload env flash info).trace = [Event.start] ∧
    readsOf (coredump_upload env flash info).trace = [] := by
  have h1 : startFailed env := ⟨hS, hf⟩
  unfold coredump_upload
  rw [if_pos h1]
  refine ⟨rfl, rfl, ?_, ?_⟩
  · show hostEvents (allocEvs info ++ [Event.start] ++ freeEvs info) =
      [Event.start]
    unfold allocEvs freeEvs
    split_ifs <;> rfl
  · show readsOf (allocEvs info ++ [Event.start] ++ freeEvs info) = []
    unfold allocEvs freeEvs
    split_ifs <;> rfl

/-- Start callback present and failing with status 42; other calls OK. -/
def envSF : UploadEnv :=
  { hasStart := true, hasEnd := true, hasProgress := false, startRet := 42,
    writeRet := fun _ => 0, progressRet := fun _ => 0, endRet := 0,
    readRet := fun _ => 0, b64Ret := fun _ => 0, eraseRet := 0 }

/-- C7 witness: the failing start's status 42 is returned and the host sees
only the start call. -/
theorem start_failure_aborts_witness :
    (coredump_upload envSF flash0 info2).err = 42 ∧
    hostEvents (coredump_upload envSF flash0 info2).trace = [Event.start] := by
  have h := start_failure_aborts envSF flash0 info2 rfl (by decide)
  exact ⟨h.1.trans rfl, h.2.2.1⟩

/-- C8: when start succeeded (or is absent) and an `end` callback is
present, `end` is invoked right after the streaming loop regardless of the
loop's outcome; an `end` failure becomes the returned error only when the
loop succeeded (and then no erase happens), while a failing loop's error is
returned unchanged. -/
theorem end_callback_semantics (env : UploadEnv) (flash : Nat → Nat)
    (info : coredump_uploader_info)
    (hS : env.hasStart = true → env.startRet = 0) (hE : env.hasEnd = true) :
    (∃ tl, (coredump_upload env flash info).trace =
      allocEvs info ++ startEvs env ++ (uploadLoop env flash info).2 ++
        Event.endCb :: tl) ∧
    ((uploadLoop env flash info).1 = 0 → env.endRet ≠ 0 →
      (coredump_upload env flash info).err = env.endRet ∧
      Event.erase ∉ (coredump_upload env flash info).trace) ∧
    ((uploadLoop env flash info).1 ≠ 0 →
      (coredump_upload env flash info).err = (uploadLoop env flash info).1) := by
  have h1 : ¬ startFailed env := fun hc => hc.2 (hS hc.1)
  refine ⟨?_, ?_, ?_⟩
  · unfold coredump_upload
    rw [if_neg h1]
    by_cases h2 : sessionErr env flash info = 0
    · rw [if_pos h2]
      exact ⟨[Event.erase] ++ freeEvs info,
        by simp [endEvs, hE, List.append_assoc]⟩
    · rw [if_neg h2]
      exact ⟨freeEvs info, by simp [endEvs, hE, List.append_assoc]⟩
  · intro hl he
    have h2 : sessionErr env flash info ≠ 0 := by
      unfold sessionErr
      rw [if_pos ⟨hE, hl, he⟩]
      exact he
    have herr : (coredump_upload env flash info).err =
        sessionErr env flash info := by
      unfold coredump_upload
      rw [if_neg h1, if_neg h2]
    have hse : sessionErr env flash info = env.endRet := by
      unfold sessionErr
      rw [if_pos ⟨hE, hl, he⟩]
    exact ⟨herr.trans hse,
      fun hm => h2 ((erase_mem_iff env flash info).mp hm).2⟩
  · intro hl
    have h2 : sessionErr env flash info ≠ 0 := by
      unfold sessionErr
      split_ifs with h
      · exact h.2.2
      · exact hl
    have herr : (coredump_upload env flash info).err =
        sessionErr env flash info := by
      unfold coredump_upload
      rw [if_neg h1, if_neg h2]
    have hse : sessionErr env flash info = (uploadLoop env flash info).1 := by
      unfold sessionErr
      rw [if_neg (fun h => hl h.2.1)]
    exact herr.trans hse

/-- No start callback; end callback failing with status 9; rest OK. -/
def envEF : UploadEnv :=
  { hasStart := false, hasEnd := true, hasProgress := false, startRet := 0,
    writeRet := fun _ => 0, progressRet := fun _ => 0, endRet := 9,
    readRet := fun _ => 0, b64Ret := fun _ => 0, eraseRet := 0 }

/-- C8 witness: a failing end callback after a clean loop surfaces its
status 9. -/
theorem end_callback_semantics_witness :
    (coredump_upload envEF flash0 info2).err = 9 :=
  ((end_callback_semantics envEF flash0 info2 (by decide) rfl).2.1
    (by decide) (by decide)).1.trans rfl

theorem imageBytes_append (flash : Nat → Nat) (a n m : Nat) :
    imageBytes flash a n ++ imageBytes flash (a + n) m =
      imageBytes flash a (n + m) := by
  unfold imageBytes
  rw [List.range_add, List.map_append, List.map_map]
  have hf : (fun j => flash (a + n + j)) =
      ((fun j => flash (a + j)) ∘ fun x => n + x) := by
    funext j
    simp [Function.comp, Nat.add_assoc]
  rw [hf]

theorem writesConcat_chunkBlock (env : UploadEnv) (flash : Nat → Nat)
    (info : coredump_uploader_info) (i : Nat) :
    writesConcat (chunkBlock env flash info i) = payloadOf flash info i := by
  unfold chunkBlock
  split_ifs <;> simp [writesConcat]

theorem readsOf_chunkBlock (env : UploadEnv) (flash : Nat → Nat)
    (info : coredump_uploader_info) (i : Nat) :
    readsOf (chunkBlock env flash info i) =
      [(info.flash_addr + i * info.chunk_size, bytesToRead info i)] := by
  unfold chunkBlock
  split_ifs <;> rfl

theorem writesConcat_allocEvs (info : coredump_uploader_info) :
    writesConcat (allocEvs info) = [] := by
  unfold allocEvs
  split_ifs <;> rfl

theorem writesConcat_freeEvs (info : coredump_uploader_info) :
    writesConcat (freeEvs info) = [] := by
  unfold freeEvs
  split_ifs <;> rfl

theorem writesConcat_startEvs (env : UploadEnv) :
    writesConcat (startEvs env) = [] := by
  unfold startEvs
  split_ifs <;> rfl

theorem writesConcat_endEvs (env : UploadEnv) :
    writesConcat (endEvs env) = [] := by
  unfold endEvs
  split_ifs <;> rfl

theorem readsOf_allocEvs (info : coredump_uploader_info) :
    readsOf (allocEvs info) = [] := by
  unfold allocEvs
  split_ifs <;> rfl

theorem readsOf_freeEvs (info : coredump_uploader_info) :
    readsOf (freeEvs info) = [] := by
  unfold freeEvs
  split_ifs <;> rfl

theorem readsOf_startEvs (env : UploadEnv) :
    readsOf (startEvs env) = [] := by
  unfold startEvs
  split_ifs <;> rfl

theorem readsOf_endEvs (env : UploadEnv) :
    readsOf (endEvs env) = [] := by
  unfold endEvs
  split_ifs <;> rfl

/-- The payloads of a fully successful raw (no Base64) run of the loop from
chunk `i` concatenate to the image bytes from offset `i * chunk_size`. -/
theorem blocksFrom_writes (env : UploadEnv) (flash : Nat → Nat)
    (info : coredump_uploader_info) (hwf : infoWF info)
    (hb : info.use_base64 = false) :
    ∀ k i, i + k = info.chunk_count →
      writesConcat (blocksFrom env flash info i k) =
        imageBytes flash (info.flash_addr + i * info.chunk_size)
          (info.total_size - i * info.chunk_size) := by
  obtain ⟨hcs, hcc, hlast, hle, htot⟩ := hwf
  intro k
  induction k with
  | zero =>
    intro i hik
    have hi : i = info.chunk_count := by omega
    have h2 : info.chunk_size * (info.chunk_count - 1) + info.last_chunk_size ≤
        info.chunk_size * info.chunk_count := by
      have h3 : info.chunk_size * (info.chunk_count - 1) + info.chunk_size =
          info.chunk_size * (info.chunk_count - 1 + 1) := by ring
      have h4 : info.chunk_count - 1 + 1 = info.chunk_count := by omega
      calc info.chunk_size * (info.chunk_count - 1) + info.last_chunk_size
          ≤ info.chunk_size * (info.chunk_count - 1) + info.chunk_size := by omega
        _ = info.chunk_size * (info.chunk_count - 1 + 1) := h3
        _ = info.chunk_size * info.chunk_count := by rw [h4]
    have hmul : info.chunk_size * info.chunk_count =
        info.chunk_count * info.chunk_size := Nat.mul_comm _ _
    have h0 : info.total_size - i * info.chunk_size = 0 := by
      subst hi
      omega
    rw [h0]
    rfl
  | succ k ih =>
    intro i hik
    rw [blocksFrom_succ, writesConcat_append, writesConcat_chunkBlock]
    have hpay : payloadOf flash info i =
        imageBytes flash (info.flash_addr + i * info.chunk_size)
          (bytesToRead info i) := by
      unfold payloadOf
      rw [if_neg (by rw [hb]; exact Bool.false_ne_true)]
      rfl
    rw [hpay]
    by_cases hlastq : i = info.chunk_count - 1
    · have hk0 : k = 0 := by omega
      subst hk0
      rw [show writesConcat (blocksFrom env flash info (i + 1) 0) = [] from rfl,
        List.append_nil]
      unfold bytesToRead
      rw [if_pos hlastq]
      congr 1
      subst hlastq
      have hcomm : info.chunk_size * (info.chunk_count - 1) =
          (info.chunk_count - 1) * info.chunk_size := Nat.mul_comm _ _
      omega
    · have hik2 : (i + 1) + k = info.chunk_count := by omega
      have hi1 : i + 1 ≤ info.chunk_count - 1 := by omega
      rw [ih (i + 1) hik2]
      unfold bytesToRead
      rw [if_neg hlastq]
      have haddr : info.flash_addr + i * info.chunk_size + info.chunk_size =
          info.flash_addr + (i + 1) * info.chunk_size := by ring
      have hbound : (i + 1) * info.chunk_size ≤ info.total_size := by
        have h1 : (i + 1) * info.chunk_size ≤
            (info.chunk_count - 1) * info.chunk_size :=
          Nat.mul_le_mul_right _ hi1
        have h2 : (info.chunk_count - 1) * info.chunk_size =
            info.chunk_size * (info.chunk_count - 1) := Nat.mul_comm _ _
        omega
      have hlen : info.chunk_size + (info.total_size - (i + 1) * info.chunk_size) =
          info.total_size - i * info.chunk_size := by
        have h3 : (i + 1) * info.chunk_size =
            i * info.chunk_size + info.chunk_size := by ring
        omega
      rw [← hlen, ← haddr]
      exact imageBytes_append flash _ _ _

/-- The reads of a fully successful run of the loop from chunk `i` are the
per-chunk (address, length) pairs, in ascending chunk order. -/
theorem blocksFrom_reads (env : UploadEnv) (flash : Nat → Nat)
    (info : coredump_uploader_info) :
    ∀ k i, readsOf (blocksFrom env flash info i k) =
      (List.range' i k).map
        (fun j => (info.flash_addr + j * info.chunk_size, bytesToRead info j)) := by
  intro k
  induction k with
  | zero =>
    intro i
    rfl
  | succ k ih =>
    intro i
    rw [blocksFrom_succ, readsOf_append, readsOf_chunkBlock, ih (i + 1)]
    rfl

/-- C1: on a raw (no Base64) run over a well-formed descriptor that returns
`ESP_OK`, the concatenation of the bytes passed to the successive `write`
calls, in call order, is exactly the raw image
(bytes `flash_addr .. flash_addr + total_size`); the flash reads are one per
chunk in strictly ascending address order and never reach past
`flash_addr + total_size`. -/
theorem upload_raw_stream (env : UploadEnv) (flash : Nat → Nat)
    (info : coredump_uploader_info) (hwf : infoWF info)
    (hb : info.use_base64 = false)
    (hok : (coredump_upload env flash info).err = 0) :
    writesConcat (coredump_upload env flash info).trace =
      imageBytes flash info.flash_addr info.total_size ∧
    readsOf (coredump_upload env flash info).trace =
      (List.range info.chunk_count).map
        (fun i => (info.flash_addr + i * info.chunk_size, bytesToRead info i)) ∧
    List.Pairwise (fun a b => a.1 < b.1)
      (readsOf (coredump_upload env flash info).trace) ∧
    (∀ p ∈ readsOf (coredump_upload env flash info).trace,
      p.1 + p.2 ≤ info.flash_addr + info.total_size) := by
  have hns : ¬ startFailed env := by
    intro h1
    have he : (coredump_upload env flash info).err = env.startRet := by
      unfold coredump_upload
      rw [if_pos h1]
    exact h1.2 (he.symm.trans hok)
  have hs0 : sessionErr env flash info = 0 := by
    by_contra h2
    have he : (coredump_upload env flash info).err =
        sessionErr env flash info := by
      unfold coredump_upload
      rw [if_neg hns, if_neg h2]
    exact h2 (he.symm.trans hok)
  have hloop : (uploadLoop env flash info).1 = 0 :=
    ((sessionErr_eq_zero_iff env flash info).mp hs0).1
  have hchunks : ∀ j, j < info.chunk_count →
      chunkOk env info.use_base64 (0 + j) :=
    (uploadFrom_fst_zero_iff env flash info info.chunk_count 0).mp hloop
  have htr : (uploadLoop env flash info).2 =
      blocksFrom env flash info 0 info.chunk_count := by
    unfold uploadLoop
    rw [uploadFrom_snd_ok env flash info info.chunk_count 0 hchunks]
  have htrace : (coredump_upload env flash info).trace =
      allocEvs info ++ startEvs env ++ (uploadLoop env flash info).2 ++
        endEvs env ++ [Event.erase] ++ freeEvs info := by
    unfold coredump_upload
    rw [if_neg hns, if_pos hs0]
  have hreads : readsOf (coredump_upload env flash info).trace =
      (List.range info.chunk_count).map
        (fun i => (info.flash_addr + i * info.chunk_size, bytesToRead info i)) := by
    rw [htrace, readsOf_append, readsOf_append, readsOf_append, readsOf_append,
      readsOf_append, readsOf_allocEvs, readsOf_startEvs, readsOf_endEvs,
      readsOf_freeEvs, htr, blocksFrom_reads, List.range_eq_range']
    simp [readsOf]
  obtain ⟨hcs, hcc, hlast, hle, htot⟩ := hwf
  refine ⟨?_, hreads, ?_, ?_⟩
  · rw [htrace, writesConcat_append, writesConcat_append, writesConcat_append,
      writesConcat_append, writesConcat_append, writesConcat_allocEvs,
      writesConcat_startEvs, writesConcat_endEvs, writesConcat_freeEvs, htr,
      blocksFrom_writes env flash info ⟨hcs, hcc, hlast, hle, htot⟩ hb
        info.chunk_count 0 (by omega)]
    simp [writesConcat, imageBytes]
  · rw [hreads, List.pairwise_map]
    refine (List.pairwise_lt_range info.chunk_count).imp ?_
    intro a b hab
    exact Nat.add_lt_add_left ((Nat.mul_lt_mul_right hcs).mpr hab) _
  · intro p hp
    rw [hreads, List.mem_map] at hp
    obtain ⟨j, hj, rfl⟩ := hp
    have hjc : j < info.chunk_count := List.mem_range.mp hj
    have hcomm : info.chunk_size * (info.chunk_count - 1) =
        (info.chunk_count - 1) * info.chunk_size := Nat.mul_comm _ _
    unfold bytesToRead
    by_cases hlastq : j = info.chunk_count - 1
    · rw [if_pos hlastq]
      subst hlastq
      omega
    · rw [if_neg hlastq]
      have h1 : (j + 1) * info.chunk_size ≤
          (info.chunk_count - 1) * info.chunk_size :=
        Nat.mul_le_mul_right _ (by omega)
      have h2 : (j + 1) * info.chunk_size =
          j * info.chunk_size + info.chunk_size := by ring
      omega

/-- All callbacks present and succeeding, erase succeeding. -/
def envOk : UploadEnv :=
  { hasStart := true, hasEnd := true, hasProgress := true, startRet := 0,
    writeRet := fun _ => 0, progressRet := fun _ => 0, endRet := 0,
    readRet := fun _ => 0, b64Ret := fun _ => 0, eraseRet := 0 }

/-- C1 witness: on a clean raw run over the two-chunk descriptor `info2`,
the concatenated `write` payloads are the 5 image bytes. -/
theorem upload_raw_stream_witness :
    infoWF info2 ∧
    writesConcat (coredump_upload envOk flash0 info2).trace =
      imageBytes flash0 info2.flash_addr info2.total_size :=
  ⟨by decide,
   (upload_raw_stream envOk flash0 info2 (by decide) rfl (by decide)).1⟩

theorem hostEvents_allocEvs (info : coredump_uploader_info) :
    hostEvents (allocEvs info) = [] := by
  unfold allocEvs
  split_ifs <;> rfl

theorem hostEvents_freeEvs (info : coredump_uploader_info) :
    hostEvents (freeEvs info) = [] := by
  unfold freeEvs
  split_ifs <;> rfl

theorem hostEvents_startEvs (env : UploadEnv) :
    hostEvents (startEvs env) = startEvs env := by
  unfold startEvs
  split_ifs <;> rfl

theorem hostEvents_endEvs (env : UploadEnv) :
    hostEvents (endEvs env) = endEvs env := by
  unfold endEvs
  split_ifs <;> rfl

/-- The full host-visible sequence of an error-free run:
`start?`, then per chunk `write` then `progress?`, then `end?`, then the
erase. -/
def fullHostSeq (env : UploadEnv) (flash : Nat → Nat)
    (info : coredump_uploader_info) : List Event :=
  startEvs env ++ hostEvents (blocksFrom env flash info 0 info.chunk_count) ++
    endEvs env ++ [Event.erase]

/-- End callback present, `write` failing on chunk 0, the rest succeeding. -/
def envWF0 : UploadEnv :=
  { hasStart := false, hasEnd := true, hasProgress := false, startRet := 0,
    writeRet := fun i => if i = 0 then -1 else 0, progressRet := fun _ => 0,
    endRet := 0, readRet := fun _ => 0, b64Ret := fun _ => 0, eraseRet := 0 }

/-- C6 counterexample: with an `end` callback registered and `write` failing
on chunk 0 of the two-chunk descriptor `info2`, the observed host sequence
(`write`, then `end`) is neither the full sequence nor a strict initial
segment of it — `end` arrives before the never-sent second `write`. -/
theorem callback_order_claim_refuted :
    ¬ (hostEvents (coredump_upload envWF0 flash0 info2).trace =
         fullHostSeq envWF0 flash0 info2 ∨
       (hostEvents (coredump_upload envWF0 flash0 info2).trace <+:
          fullHostSeq envWF0 flash0 info2 ∧
        hostEvents (coredump_upload envWF0 flash0 info2).trace ≠
          fullHostSeq envWF0 flash0 info2)) := by
  decide

/-- C6 (amended): when the erase runs, the host sequence is exactly
`start?`, per chunk `write` then `progress?`, `end?`, erase; on an error run
the host sequence is an initial segment of the per-chunk portion (with
`start?` first), followed by `end` exactly when `start` succeeded and an
`end` callback is present. -/
theorem callback_order_characterization (env : UploadEnv) (flash : Nat → Nat)
    (info : coredump_uploader_info) :
    (Event.erase ∈ (coredump_upload env flash info).trace →
      hostEvents (coredump_upload env flash info).trace =
        fullHostSeq env flash info) ∧
    (Event.erase ∉ (coredump_upload env flash info).trace →
      ∃ p, (p <+: startEvs env ++
              hostEvents (blocksFrom env flash info 0 info.chunk_count)) ∧
        hostEvents (coredump_upload env flash info).trace =
          p ++ (if env.hasEnd = true ∧ (env.hasStart = true → env.startRet = 0)
                then [Event.endCb] else [])) := by
  constructor
  · intro hm
    obtain ⟨hns, hs0⟩ := (erase_mem_iff env flash info).mp hm
    have hloop : (uploadLoop env flash info).1 = 0 :=
      ((sessionErr_eq_zero_iff env flash info).mp hs0).1
    have hchunks : ∀ j, j < info.chunk_count →
        chunkOk env info.use_base64 (0 + j) :=
      (uploadFrom_fst_zero_iff env flash info info.chunk_count 0).mp hloop
    have htr : (uploadLoop env flash info).2 =
        blocksFrom env flash info 0 info.chunk_count := by
      unfold uploadLoop
      rw [uploadFrom_snd_ok env flash info info.chunk_count 0 hchunks]
    have htrace : (coredump_upload env flash info).trace =
        allocEvs info ++ startEvs env ++ (uploadLoop env flash info).2 ++
          endEvs env ++ [Event.erase] ++ freeEvs info := by
      unfold coredump_upload
      rw [if_neg hns, if_pos hs0]
    rw [htrace, hostEvents_append, hostEvents_append, hostEvents_append,
      hostEvents_append, hostEvents_append, hostEvents_allocEvs,
      hostEvents_freeEvs, hostEvents_startEvs, hostEvents_endEvs, htr]
    unfold fullHostSeq
    simp [hostEvents, List.append_assoc]
  · intro hnm
    have hn : ¬ (¬ startFailed env ∧ sessionErr env flash info = 0) :=
      fun hc => hnm ((erase_mem_iff env flash info).mpr hc)
    by_cases h1 : startFailed env
    · have htrace : (coredump_upload env flash info).trace =
          allocEvs info ++ [Event.start] ++ freeEvs info := by
        unfold coredump_upload
        rw [if_pos h1]
      refine ⟨[Event.start], ?_, ?_⟩
      · rw [show startEvs env = [Event.start] from by
          unfold startEvs
          rw [if_pos h1.1]]
        exact ⟨_, rfl⟩
      · rw [htrace, hostEvents_append, hostEvents_append, hostEvents_allocEvs,
          hostEvents_freeEvs, if_neg (fun hc => h1.2 (hc.2 h1.1))]
        simp [hostEvents]
    · have h2 : sessionErr env flash info ≠ 0 := fun hs => hn ⟨h1, hs⟩
      have hS : env.hasStart = true → env.startRet = 0 :=
        fun hs => not_not.mp (fun hn' => h1 ⟨hs, hn'⟩)
      have htrace : (coredump_upload env flash info).trace =
          allocEvs info ++ startEvs env ++ (uploadLoop env flash info).2 ++
            endEvs env ++ freeEvs info := by
        unfold coredump_upload
        rw [if_neg h1, if_neg h2]
      have hpre : ∃ t, hostEvents (uploadLoop env flash info).2 ++ t =
          hostEvents (blocksFrom env flash info 0 info.chunk_count) := by
        unfold uploadLoop
        exact hostEvents_uploadFrom_pre env flash info info.chunk_count 0
      obtain ⟨t, ht⟩ := hpre
      refine ⟨startEvs env ++ hostEvents (uploadLoop env flash info).2,
        ⟨t, by rw [List.append_assoc, ht]⟩, ?_⟩
      have hcond : (if env.hasEnd = true ∧
            (env.hasStart = true → env.startRet = 0)
          then [Event.endCb] else ([] : List Event)) = endEvs env := by
        unfold endEvs
        by_cases hE : env.hasEnd = true
        · rw [if_pos ⟨hE, hS⟩, if_pos hE]
        · rw [if_neg (fun hc => hE hc.1), if_neg hE]
      rw [htrace, hostEvents_append, hostEvents_append, hostEvents_append,
        hostEvents_append, hostEvents_allocEvs, hostEvents_freeEvs,
        hostEvents_startEvs, hostEvents_endEvs, hcond]
      simp [List.append_assoc]

/-- C6 witness: on a clean run over `info2`, the host sequence is exactly
the full sequence. -/
theorem callback_order_characterization_witness :
    hostEvents (coredump_upload envOk flash0 info2).trace =
      fullHostSeq envOk flash0 info2 :=
  (callback_order_characterization envOk flash0 info2).1 (by decide)
